import Mathlib

/-!
# Verification of the salon-receptionist scheduling core

A shallow embedding, in Lean 4, of the scheduling and availability engine of
the salon-receptionist repository, together with theorems settling the
specification claims about it.

Conventions of the embedding:

* Times of day are minutes since midnight (`Nat`); `"HH:mm"` strings in the
  source become their minute values.  Calendar dates are integer day numbers
  (`Int`); the weekday of a date is its residue modulo 7 (the concrete
  epoch alignment is irrelevant to every claim).  Absolute instants are
  integer minutes (`date * 1440 + timeOfDay`).
* The per-tenant MongoDB `appointments` collection becomes a
  `List Appointment`; the queries `{date, status: {$in: [confirmed,
  pending]}}`, `findOne {booking_id}`, `updateOne {$set: ...}` and the
  regex-prefix query of `generateBookingId` become the corresponding list
  operations.  MongoDB sorts plain strings in binary (code-unit) order,
  which for the ASCII identifiers at hand is the code-point lexicographic
  order implemented by `lexLt`.
* JavaScript `config.settings.x || d` (default on `undefined`/`0`) becomes
  `orDefault x d` with `0` playing the role of "absent".
* Fallible operations return `Except String α`; the Arabic error strings of
  the source are reproduced verbatim.
* `dayjs` float `diff(..., 'hour', true)` comparisons in the cancellation
  policy are modelled exactly in integer minutes: `hours < 0` iff
  `Δminutes < 0`, and `hours < noticeHours` iff `Δminutes < noticeHours *
  60` (all values involved are exact in the source's double arithmetic).
-/

namespace Salon

/-- Appointment status values stored in the database
(`status ∈ {confirmed, pending, cancelled, completed, no-show}`). -/
inductive Status where
  | confirmed
  | pending
  | cancelled
  | completed
  | noShow
deriving DecidableEq, Repr

/-- A persisted appointment record (the fields of the document created by
`bookAppointment` that the scheduling core reads or writes). -/
structure Appointment where
  booking_id : String
  date : Int
  time : Nat
  end_time : Nat
  status : Status
  cancelled_at : Option Int
  cancellation_reason : Option String
  updated_at : Int
deriving DecidableEq, Repr

/-- Working hours of one weekday: `{start, end, enabled}` from the tenant
configuration, times in minutes since midnight. -/
structure WorkingHours where
  start : Nat
  stop : Nat
  enabled : Bool
deriving DecidableEq, Repr

/-- The `settings` block of a tenant configuration.  A value `0` models an
absent (`undefined`) field; the code applies `|| default` to each. -/
structure Settings where
  slot_duration_minutes : Nat
  number_of_stylists : Nat
  max_concurrent_bookings : Nat
  advance_booking_days : Nat
  cancellation_hours_notice : Nat
deriving DecidableEq, Repr

/-- One entry of the tenant's `services` array. -/
structure Service where
  id : String
  name : String
  duration_minutes : Nat
  active : Bool
deriving DecidableEq, Repr

/-- A loaded tenant configuration (`loadTenantConfig`): working hours per
weekday (total map, `getWorkingHours` supplies a disabled default for
missing days), settings, blocked dates and services. -/
structure TenantConfig where
  working_hours : Nat → WorkingHours
  settings : Settings
  blocked_dates : List Int
  services : List Service

/-- JavaScript `x || d`: the default applies when the stored value is
falsy (`undefined` or `0`). -/
def orDefault (n d : Nat) : Nat := if n = 0 then d else n

/-- Weekday of a date (day-number modulo 7); stands for
`dayjs(date).format('dddd').toLowerCase()`. -/
def dayOfWeek (d : Int) : Nat := (d % 7).toNat

/-- `status ∈ {confirmed, pending}` — the status filter of every
appointment query made by the scheduler. -/
def isActive (s : Status) : Bool :=
  match s with
  | .confirmed => true
  | .pending => true
  | _ => false

/-- The query `{date, status: {$in: ['confirmed','pending']}}` on the
tenant's appointments collection. -/
def activeOn (db : List Appointment) (date : Int) : List Appointment :=
  db.filter fun a => decide (a.date = date) && isActive a.status

/-- JavaScript `String.prototype.trim`: strip leading and trailing
whitespace (over the character list, so that concrete evaluation
reduces). -/
def jsTrim (s : String) : String :=
  String.mk (((s.data.dropWhile Char.isWhitespace).reverse.dropWhile Char.isWhitespace).reverse)

/-- Two-digit zero-padded decimal rendering (dayjs `HH` / `mm`). -/
def pad2 (n : Nat) : String :=
  if n < 10 then "0" ++ Nat.repr n else Nat.repr n

/-- Minutes since midnight rendered as `HH:mm` (dayjs `format('HH:mm')`). -/
def formatHHMM (t : Nat) : String :=
  pad2 (t / 60) ++ ":" ++ pad2 (t % 60)

/-- `calculateEndTime` (scheduler.js): start + duration, formatted `HH:mm`;
crossing midnight wraps because only the time of day is kept. -/
def calculateEndTime (startTime duration : Nat) : Nat :=
  (startTime + duration) % 1440

/- Arabic error messages of the source, reproduced verbatim. -/

/-- validator.js: invalid phone number. -/
def msgInvalidPhone : String := "رقم الهاتف غير صحيح"

/-- validator.js: malformed date. -/
def msgInvalidDate : String := "التاريخ غير صحيح"

/-- validator.js: date in the past. -/
def msgPastDate : String := "لا يمكن الحجز في تاريخ سابق"

/-- validator.js: beyond the advance-booking window. -/
def msgTooFarAhead (d : Nat) : String :=
  "لا يمكن الحجز لأكثر من " ++ Nat.repr d ++ " يوماً مقدماً"

/-- validator.js: blocked date. -/
def msgBlockedDate : String := "هذا التاريخ غير متاح للحجز"

/-- validator.js: malformed time. -/
def msgInvalidTime : String := "الوقت غير صحيح"

/-- validator.js: salon closed on that weekday. -/
def msgClosedDay : String := "الصالون مغلق في هذا اليوم"

/-- validator.js: time outside working hours (interpolates the hours). -/
def msgOutsideHours (s e : Nat) : String :=
  "يرجى اختيار وقت ضمن ساعات العمل (" ++ formatHHMM s ++ " - " ++ formatHHMM e ++ ")"

/-- validator.js: unknown or inactive service. -/
def msgNoService : String := "الخدمة غير متوفرة"

/-- validator.js: customer name missing or shorter than 2 characters. -/
def msgName : String := "الرجاء إدخال اسم العميل"

/-- validator.js: malformed booking identifier. -/
def msgBadBookingId : String := "رقم الحجز غير صحيح"

/-- scheduler.js `isSlotAvailable`: no stylist free (capacity exceeded). -/
def msgNoStylist : String := "لا توجد كوافيرة متاحة في هذا الوقت"

/-- updateAppointment.js `isSlotAvailableExcluding`: slot already booked. -/
def msgSlotBooked : String := "عذراً، هذا الموعد محجوز مسبقاً"

/-- find/update/cancel: unknown booking identifier. -/
def msgBookingNotFound : String := "رقم الحجز غير موجود"

/-- cancelAppointment.js: appointment already cancelled. -/
def msgAlreadyCancelled : String := "هذا الموعد ملغي مسبقاً"

/-- updateAppointment.js: cannot update a cancelled appointment. -/
def msgCannotUpdateCancelled : String := "لا يمكن تعديل موعد ملغي"

/-- cancelAppointment.js: appointment already in the past. -/
def msgAlreadyPast : String := "لا يمكن إلغاء موعد انتهى بالفعل"

/-- cancelAppointment.js: insufficient cancellation notice
(interpolates the required hours). -/
def msgNotice (h : Nat) : String :=
  "يجب الإلغاء قبل " ++ Nat.repr h ++ " ساعة على الأقل من موعد الحجز"

/-! ## Availability engine (scheduler.js) -/

/-- The candidate-slot `while` loop of `getAvailableSlots`:
`while (currentTime <= endTime - serviceDuration) { push; currentTime += step }`.
The loop condition `currentTime ≤ endTime − duration` is written
`current + dur ≤ stop` (equivalent over the integers, and dayjs arithmetic
is exact on minutes).  Recursion is by explicit fuel; `genSlots` supplies
enough fuel for any positive step, matching the source, whose loop
terminates precisely when the step is positive. -/
def genSlotsAux (stop dur step : Nat) : Nat → Nat → List Nat
  | 0, _ => []
  | fuel + 1, current =>
    if current + dur ≤ stop then
      current :: genSlotsAux stop dur step fuel (current + step)
    else []

/-- Candidate start times of `getAvailableSlots`: from the weekday's opening
time, stepping by the slot granularity, while the slot still ends by
closing time. -/
def genSlots (start stop dur step : Nat) : List Nat :=
  genSlotsAux stop dur step (stop + 1) start

/-- The three-clause overlap test of `countConcurrentBookings`
(scheduler.js lines 92–96), for slot `[s, e)` against appointment
`[aStart, aEnd)`:
`(s ≥ aStart ∧ s < aEnd) ∨ (e > aStart ∧ e ≤ aEnd) ∨ (s ≤ aStart ∧ e ≥ aEnd)`. -/
def overlapTest (s e aStart aEnd : Nat) : Bool :=
  (decide (aStart ≤ s) && decide (s < aEnd)) ||
  (decide (aStart < e) && decide (e ≤ aEnd)) ||
  (decide (s ≤ aStart) && decide (aEnd ≤ e))

/-- `countConcurrentBookings(time, duration, existingAppointments, date)`:
number of appointments in the (already filtered) list whose interval
passes the three-clause overlap test against `[time, time+duration)`. -/
def countConcurrentBookings (time duration : Nat) (existing : List Appointment) : Nat :=
  existing.countP fun a => overlapTest time (time + duration) a.time a.end_time

/-- The reference half-open-interval intersection count of the spec:
appointments for the date with status confirmed/pending whose
`[time, end_time)` intersects `[t, t+dur)` under the test
`a1 < b2 ∧ b1 < a2`. -/
def specOverlapCount (db : List Appointment) (date : Int) (t dur : Nat) : Nat :=
  (activeOn db date).countP fun a => decide (t < a.end_time) && decide (a.time < t + dur)

/-- Effective slot granularity: `config.settings.slot_duration_minutes || 30`. -/
def effSlotDur (cfg : TenantConfig) : Nat := orDefault cfg.settings.slot_duration_minutes 30

/-- Effective capacity used by `getAvailableSlots`:
`config.settings.number_of_stylists || 5`. -/
def effStylists (cfg : TenantConfig) : Nat := orDefault cfg.settings.number_of_stylists 5

/-- Effective capacity used by `isSlotAvailable`:
`config.settings.max_concurrent_bookings || 5`. -/
def effMaxConcurrent (cfg : TenantConfig) : Nat :=
  orDefault cfg.settings.max_concurrent_bookings 5

/-- Effective advance-booking window: `advance_booking_days || 30`. -/
def effAdvanceDays (cfg : TenantConfig) : Nat := orDefault cfg.settings.advance_booking_days 30

/-- Effective cancellation notice: `cancellation_hours_notice || 24`. -/
def effNoticeHours (cfg : TenantConfig) : Nat :=
  orDefault cfg.settings.cancellation_hours_notice 24

/-- `getAvailableSlots(tenantId, date, serviceDuration)` (scheduler.js):
empty when the weekday is disabled; otherwise each candidate slot is paired
with `numberOfStylists − concurrentBookings` and slots with non-positive
capacity are filtered out.  The tenant's collection is passed as `db`. -/
def getAvailableSlots (cfg : TenantConfig) (date : Int) (serviceDuration : Nat)
    (db : List Appointment) : List (Nat × Int) :=
  let wh := cfg.working_hours (dayOfWeek date)
  if !wh.enabled then []
  else
    let slots := genSlots wh.start wh.stop serviceDuration (effSlotDur cfg)
    let existing := activeOn db date
    (slots.map fun slot =>
      (slot, (effStylists cfg : Int) - countConcurrentBookings slot serviceDuration existing)).filter
      fun s => decide (0 < s.2)

/-- Result of `isSlotAvailable`. -/
structure SlotCheck where
  available : Bool
  available_slots : Int
  error : Option String
deriving DecidableEq, Repr

/-- `isSlotAvailable(tenantId, date, time, duration)` (scheduler.js):
unavailable with `available_slots = 0` when the concurrent count reaches
`max_concurrent_bookings`, else available with the remaining capacity. -/
def isSlotAvailable (cfg : TenantConfig) (date : Int) (time duration : Nat)
    (db : List Appointment) : SlotCheck :=
  let maxC := effMaxConcurrent cfg
  let existing := activeOn db date
  let concurrentCount := countConcurrentBookings time duration existing
  if maxC ≤ concurrentCount then
    ⟨false, 0, some msgNoStylist⟩
  else
    ⟨true, (maxC : Int) - concurrentCount, none⟩

/-- `isSlotAvailableExcluding(tenantId, date, time, duration, excludeBookingId)`
(updateAppointment.js lines 233–262): the query additionally excludes
`excludeBookingId`, and the function returns unavailable as soon as any
remaining appointment overlaps — the capacity limit is not consulted. -/
def isSlotAvailableExcluding (date : Int) (time duration : Nat) (excludeBookingId : String)
    (db : List Appointment) : Bool × Option String :=
  let existing := db.filter fun a =>
    decide (a.date = date) && isActive a.status && decide (a.booking_id ≠ excludeBookingId)
  if existing.any fun a => overlapTest time (time + duration) a.time a.end_time then
    (false, some msgSlotBooked)
  else
    (true, none)

/-! ## Booking identifier generator (scheduler.js) -/

/-- Code-unit (= code-point, for these ASCII identifiers) lexicographic
strict order on strings, the order MongoDB uses to sort plain strings. -/
def lexLt : List Char → List Char → Bool
  | [], [] => false
  | [], _ :: _ => true
  | _ :: _, [] => false
  | a :: as, b :: bs =>
    if a.val < b.val then true
    else if b.val < a.val then false
    else lexLt as bs

/-- `.sort({booking_id: -1}).limit(1)`: the lexicographically greatest
element of the list, if any. -/
def maxId : List String → Option String
  | [] => none
  | s :: rest => some (rest.foldl (fun m x => if lexLt m.data x.data then x else m) s)

/-- Decimal value of a digit string. -/
def digitsVal (ds : List Char) : Nat :=
  ds.foldl (fun n c => n * 10 + (c.toNat - 48)) 0

/-- Characters `p` lead the list `s`. -/
def startsWithChars : List Char → List Char → Bool
  | [], _ => true
  | _ :: _, [] => false
  | a :: as, b :: bs => decide (a = b) && startsWithChars as bs

/-- JavaScript `parseInt`: value of the leading digit run, none (`NaN`)
when the string does not start with a digit. -/
def parseIntLeading (l : List Char) : Option Nat :=
  match l.takeWhile Char.isDigit with
  | [] => none
  | ds => some (digitsVal ds)

/-- `lastId.split('-').pop()`: the characters after the last `'-'`. -/
def lastSegment (l : List Char) : List Char :=
  l.foldl (fun acc c => if c = '-' then [] else acc ++ [c]) []

/-- `String.prototype.padStart(3, '0')`: left-pad to (at least) 3
characters; longer strings are returned unchanged (widened, not
truncated). -/
def padStart3 (s : String) : String :=
  String.mk (List.replicate (3 - s.data.length) '0' ++ s.data)

/-- `generateBookingId(tenantId, date)` (scheduler.js): prefix
`BK-{tenantId}-{YYYYMMDD}-`, sequence = 1 + suffix of the
lexicographically greatest stored identifier with that prefix (1 when none
exists), zero-padded to at least three digits.  `date` is the raw
`YYYY-MM-DD` string (a global replace strips the dashes); `storeIds` is
the set of `booking_id` values in the collection.  Returns `none` on the
`parseInt = NaN` path (suffix not starting with a digit), on which the
source would propagate `NaN` into the identifier. -/
def generateBookingId (tenantId dateStr : String) (storeIds : List String) : Option String :=
  let compactDate := String.mk (dateStr.data.filter fun c => c ≠ '-')
  let idStem := "BK-" ++ tenantId ++ "-" ++ compactDate ++ "-"
  let existing := storeIds.filter fun s => startsWithChars idStem.data s.data
  match maxId existing with
  | none => some (idStem ++ padStart3 (Nat.repr 1))
  | some lastId =>
    match parseIntLeading (lastSegment lastId.data) with
    | none => none
    | some lastSeq => some (idStem ++ padStart3 (Nat.repr (lastSeq + 1)))

/-! ## Validation pipeline (validator.js)

`validateDate` takes the current date (`dayjs().startOf('day')`, a whole
calendar day) as the explicit parameter `today`; a malformed date string is
the `none` input (strict `YYYY-MM-DD` parsing happens at the string
boundary).  `validateTime` likewise takes `none` for a string that fails
strict `HH:mm` parsing.  Neither function reads the current time of day:
`validateDate` compares dates at whole-day granularity and `validateTime`
has no clock input at all, exactly as in the source. -/

/-- `validateDate(tenantId, date)` (validator.js lines 63–108): malformed,
past (strictly before today), beyond the advance window, or blocked dates
are rejected; otherwise the resolved weekday is returned. -/
def validateDate (cfg : TenantConfig) (today : Int) (date : Option Int) : Except String Nat :=
  match date with
  | none => .error msgInvalidDate
  | some d =>
    if d < today then .error msgPastDate
    else if today + (effAdvanceDays cfg : Int) < d then
      .error (msgTooFarAhead (effAdvanceDays cfg))
    else if cfg.blocked_dates.contains d then .error msgBlockedDate
    else .ok (dayOfWeek d)

/-- `validateTime(tenantId, time, dayName)` (validator.js lines 117–151):
malformed times, disabled weekdays, and times outside `[start, stop)` of
the weekday's working hours are rejected (`isBefore(start) ||
isSameOrAfter(end)`). -/
def validateTime (cfg : TenantConfig) (time : Option Nat) (dayName : Nat) : Except String Unit :=
  match time with
  | none => .error msgInvalidTime
  | some t =>
    let wh := cfg.working_hours dayName
    if !wh.enabled then .error msgClosedDay
    else if t < wh.start || wh.stop ≤ t then .error (msgOutsideHours wh.start wh.stop)
    else .ok ()

/-- `validateService(tenantId, serviceId)`: the service must exist and be
active (`getService` in tenantLoader.js finds by id with `active` set). -/
def validateService (cfg : TenantConfig) (serviceId : String) : Except String Service :=
  match cfg.services.find? (fun s => decide (s.id = serviceId) && s.active) with
  | some s => .ok s
  | none => .error msgNoService

/-- Character class `[a-z0-9-]` of the booking-identifier pattern. -/
def isIdClassChar (c : Char) : Bool :=
  (decide ('a' ≤ c) && decide (c ≤ 'z')) || c.isDigit || decide (c = '-')

/-- The final 13 characters demanded by the pattern:
`'-'`, eight digits, `'-'`, three digits. -/
def idTail13 (l : List Char) : Bool :=
  match l with
  | '-' :: rest =>
    let d8 := rest.take 8
    let r2 := rest.drop 8
    decide (d8.length = 8) && d8.all Char.isDigit &&
      (match r2 with
       | '-' :: d3 => decide (d3.length = 3) && d3.all Char.isDigit
       | _ => false)
  | _ => false

/-- The regular expression of `validateBookingId` (validator.js line 182),
anchored `BK-[a-z0-9-]+` then `-`, eight digits, `-`, three digits.
Because the suffix after the `+`-group has the fixed length 13 and both
anchors are present, a string matches the pattern iff its last 13
characters are `-\d{8}-\d{3}`, it starts with `BK-`, and the (necessarily
nonempty) middle lies in `[a-z0-9-]`; digits and dashes are themselves in
the class, so the decomposition is unique and the check is
deterministic. -/
def bookingIdPattern (l : List Char) : Bool :=
  let n := l.length
  decide (17 ≤ n) &&
  decide (l.take 3 = ['B', 'K', '-']) &&
  (let mid := (l.drop 3).take (n - 16)
   decide (mid ≠ []) && mid.all isIdClassChar) &&
  idTail13 (l.drop (n - 13))

/-- `validateBookingId(bookingId)` as a Boolean (the source wraps the
pattern test in a `{valid, error}` result whose error is
`msgBadBookingId`). -/
def validateBookingId (bookingId : String) : Bool :=
  bookingIdPattern bookingId.data

/-- Input to `validateBookingInput`.  The phone field carries the outcome
of the phone-parsing collaborator (libphonenumber-js, out of scope per the
spec): canonical E.164 form on success, the source's error message
otherwise.  Date and time are `none` when the raw string fails strict
parsing. -/
structure BookingInput where
  customer_name : String
  phone : Except String String
  date : Option Int
  time : Option Nat
  service_id : String

/-- The `data` object accumulated by `validateBookingInput`. -/
structure NormalizedData where
  phone_number : Option String
  dayName : Option Nat
  service : Option Service
deriving DecidableEq, Repr

/-- Result shape of `validateBookingInput`: `{valid, errors?, data?}`. -/
structure ValidationResult where
  valid : Bool
  errors : List String
  data : Option NormalizedData
deriving DecidableEq, Repr

/-- `validateBookingInput(params)` (validator.js lines 201–254): runs the
phone, date, time (only if the date was valid), service, and customer-name
checks, pushing each failure's message onto `errors` in that order;
returns the accumulated normalized data when no check failed. -/
def validateBookingInput (cfg : TenantConfig) (today : Int) (inp : BookingInput) :
    ValidationResult :=
  let phoneErrs : List String := match inp.phone with | .error e => [e] | .ok _ => []
  let dataPhone : Option String := match inp.phone with | .ok f => some f | .error _ => none
  let dateRes := validateDate cfg today inp.date
  let dateErrs : List String := match dateRes with | .error e => [e] | .ok _ => []
  let dataDay : Option Nat := match dateRes with | .ok w => some w | .error _ => none
  let timeErrs : List String :=
    match dateRes with
    | .ok w => (match validateTime cfg inp.time w with | .error e => [e] | .ok _ => [])
    | .error _ => []
  let svcRes := validateService cfg inp.service_id
  let svcErrs : List String := match svcRes with | .error e => [e] | .ok _ => []
  let dataSvc : Option Service := match svcRes with | .ok s => some s | .error _ => none
  let nameErrs : List String := if (jsTrim inp.customer_name).length < 2 then [msgName] else []
  let errors := phoneErrs ++ dateErrs ++ timeErrs ++ svcErrs ++ nameErrs
  if errors.isEmpty then ⟨true, [], some ⟨dataPhone, dataDay, dataSvc⟩⟩
  else ⟨false, errors, none⟩

/-! ## Update and cancel tools (updateAppointment.js, cancelAppointment.js) -/

/-- `findOne({booking_id, tenant_id})` on the tenant's collection. -/
def findOne (store : List Appointment) (bid : String) : Option Appointment :=
  store.find? fun a => decide (a.booking_id = bid)

/-- `updateOne({booking_id, tenant_id}, {$set: ...})`: rewrite the
matching record(s) with `f`. -/
def updateOne (store : List Appointment) (bid : String) (f : Appointment → Appointment) :
    List Appointment :=
  store.map fun a => if a.booking_id = bid then f a else a

/-- The date/time fields applied by `updateAppointment` when the date or
time changes: `updates.date` (only when `new_date` given), `updates.time`
(only when `new_time` given), and the recomputed `updates.end_time`. -/
structure TimeUpdates where
  date : Option Int
  time : Option Nat
  end_time : Nat
deriving DecidableEq, Repr

/-- The date/time-change block of `updateAppointment` (updateAppointment.js
lines 126–167), for an existing non-cancelled `apt`.  `serviceDuration` is
the caller-resolved duration (the new service's when `new_service_id` is
given, else `appointment.service_duration`).  When neither `new_date` nor
`new_time` is present the block is skipped (`.ok none`).  Otherwise:
`validateDate` and `validateTime` run **only when `new_date` is present**;
then the slot check excluding the appointment itself runs; on success the
block yields the applied updates.  (On the unavailable branch the slot
check's error is always `some msgSlotBooked`, so the `getD` default is
never used.) -/
def updateDateTimeCheck (cfg : TenantConfig) (today : Int) (apt : Appointment)
    (new_date : Option Int) (new_time : Option Nat) (serviceDuration : Nat)
    (db : List Appointment) : Except String (Option TimeUpdates) :=
  if new_date.isSome || new_time.isSome then
    let targetDate := new_date.getD apt.date
    let targetTime := new_time.getD apt.time
    let afterChecks : Except String (Option TimeUpdates) :=
      match isSlotAvailableExcluding targetDate targetTime serviceDuration apt.booking_id db with
      | (true, _) => .ok (some ⟨new_date, new_time, calculateEndTime targetTime serviceDuration⟩)
      | (false, e) => .error (e.getD msgSlotBooked)
    match new_date with
    | some nd =>
      (match validateDate cfg today (some nd) with
       | .error e => .error e
       | .ok dayName =>
         match validateTime cfg (some targetTime) dayName with
         | .error e => .error e
         | .ok _ => afterChecks)
    | none => afterChecks
  else .ok none

/-- The `$set` fields written by `cancelAppointment`. -/
def cancelFields (ts : Int) (reason : String) (a : Appointment) : Appointment :=
  { a with
      status := .cancelled
      cancelled_at := some ts
      cancellation_reason := some (jsTrim reason)
      updated_at := ts }

/-- Generic failure message of the cancel tool's catch-all handler. -/
def msgCancelGeneric : String := "حدث خطأ أثناء إلغاء الموعد"

/-- `cancelAppointment(params)` (cancelAppointment.js lines 18–89).
`nowMin` is the current instant in minutes; the source's
`hoursUntilAppointment = diff(now, 'hour', true)` comparisons `< 0` and
`< cancellationHours` become the exact integer-minute comparisons
`minutesUntil < 0` and `minutesUntil < cancellationHours * 60`.  Returns
the tool's result together with the resulting store; every rejection path
returns before the store is written.  (The re-fetch after the update could
only miss if the update removed the record, which `updateOne` never does;
that dead branch maps to the catch-all error.) -/
def cancelAppointment (cfg : TenantConfig) (nowMin ts : Int) (store : List Appointment)
    (bid reason : String) : Except String Appointment × List Appointment :=
  if !validateBookingId bid then (.error msgBadBookingId, store)
  else
    match findOne store bid with
    | none => (.error msgBookingNotFound, store)
    | some apt =>
      if apt.status = .cancelled then (.error msgAlreadyCancelled, store)
      else
        let cancellationHours := effNoticeHours cfg
        let minutesUntil : Int := apt.date * 1440 + apt.time - nowMin
        if minutesUntil < 0 then (.error msgAlreadyPast, store)
        else if minutesUntil < (cancellationHours : Int) * 60 then
          (.error (msgNotice cancellationHours), store)
        else
          let store' := updateOne store bid (cancelFields ts reason)
          match findOne store' bid with
          | some a => (.ok a, store')
          | none => (.error msgCancelGeneric, store')

/-- Decidable equality for `Except`, used to evaluate the embedded
operations on concrete inputs. -/
instance {α β : Type} [DecidableEq α] [DecidableEq β] : DecidableEq (Except α β) := fun x y =>
  match x, y with
  | .error a, .error b =>
    if h : a = b then isTrue (by rw [h]) else isFalse (by intro hc; cases hc; exact h rfl)
  | .ok a, .ok b =>
    if h : a = b then isTrue (by rw [h]) else isFalse (by intro hc; cases hc; exact h rfl)
  | .error _, .ok _ => isFalse fun h => Except.noConfusion h
  | .ok _, .error _ => isFalse fun h => Except.noConfusion h

/-! ## Concrete tenants, appointments and stores used to instantiate the
theorems on explicit inputs. -/

/-- A tenant open 09:00–11:00 every day, 30-minute slots, 2 stylists and a
concurrent-booking limit of 2, 30-day advance window, 24-hour notice. -/
def cfgA : TenantConfig :=
  ⟨fun _ => ⟨540, 660, true⟩, ⟨30, 2, 2, 30, 24⟩, [], [⟨"SRV-001", "قص شعر", 30, true⟩]⟩

/-- One confirmed appointment 09:00–09:30 on day 0. -/
def aptA : Appointment :=
  ⟨"BK-t-20250101-001", 0, 540, 570, .confirmed, none, none, 0⟩

/-- Store holding just `aptA`. -/
def dbA : List Appointment := [aptA]

/-- Like `cfgA` but with 2 stylists and a concurrent-booking limit of 5:
the two capacity settings disagree. -/
def cfgD : TenantConfig :=
  ⟨fun _ => ⟨540, 660, true⟩, ⟨30, 2, 5, 30, 24⟩, [], [⟨"SRV-001", "قص شعر", 30, true⟩]⟩

/-- A second confirmed appointment 09:00–09:30 on day 0, the one "being
updated" in the self-exclusion scenarios. -/
def aptB : Appointment :=
  ⟨"BK-t-20250101-002", 0, 540, 570, .confirmed, none, none, 0⟩

/-- Store holding `aptA` and `aptB`. -/
def dbAB : List Appointment := [aptA, aptB]

/-- A tenant open 09:00–21:00 every day (for the update scenarios). -/
def cfg7 : TenantConfig :=
  ⟨fun _ => ⟨540, 1260, true⟩, ⟨30, 5, 5, 30, 24⟩, [], [⟨"SRV-001", "قص شعر", 30, true⟩]⟩

/-- An appointment on day 10 at 10:00–10:30 with a well-formed identifier. -/
def apt7 : Appointment :=
  ⟨"BK-salon-farah-20251010-001", 10, 600, 630, .confirmed, none, none, 0⟩

/-- Store holding just `apt7`. -/
def db7 : List Appointment := [apt7]

/-- Stored identifiers containing both a three-digit and a four-digit
sequence suffix for the same tenant and date. -/
def store999 : List String := ["BK-t-20251010-999", "BK-t-20251010-1000"]

/-- A confirmed appointment on day 1 at 09:00 (absolute start minute
1980), for the cancellation scenarios. -/
def apt8 : Appointment :=
  ⟨"BK-x-20251010-001", 1, 540, 570, .confirmed, none, none, 0⟩

/-- Store holding just `apt8`. -/
def store8 : List Appointment := [apt8]

/-- A fully valid booking input for `cfgA` on day 3 at 10:00. -/
def inpW : BookingInput :=
  ⟨"سارة أحمد", .ok "+96599888777", some 3, some 600, "SRV-001"⟩

/-! ## Lemmas about the candidate-slot generator -/

/-- The effective default `orDefault n d` is positive whenever the default
is. -/
theorem orDefault_pos (n d : Nat) (hd : 0 < d) : 0 < orDefault n d := by
  unfold orDefault
  split <;> omega

/-- Every element produced by `genSlotsAux` is at least the running start
time. -/
theorem genSlotsAux_le (stop dur step : Nat) :
    ∀ fuel current t, t ∈ genSlotsAux stop dur step fuel current → current ≤ t := by
  intro fuel
  induction fuel with
  | zero => intro current t ht; simp [genSlotsAux] at ht
  | succ n ih =>
    intro current t ht
    unfold genSlotsAux at ht
    split at ht
    · rcases List.mem_cons.1 ht with h | h
      · omega
      · have := ih (current + step) t h
        omega
    · simp at ht

/-- With enough fuel and a positive step, membership in `genSlotsAux` is
exactly membership in the arithmetic progression of start times whose slot
still fits before `stop`. -/
theorem genSlotsAux_mem (stop dur step : Nat) (hstep : 0 < step) :
    ∀ fuel current, stop + 1 ≤ current + fuel →
      ∀ t, t ∈ genSlotsAux stop dur step fuel current ↔
        ∃ k, t = current + k * step ∧ t + dur ≤ stop := by
  intro fuel
  induction fuel with
  | zero =>
    intro current hfuel t
    simp only [genSlotsAux, List.not_mem_nil, false_iff, not_exists, not_and]
    intro k ht
    have : current ≤ t := by
      subst ht; exact Nat.le_add_right _ _
    omega
  | succ n ih =>
    intro current hfuel t
    unfold genSlotsAux
    split
    · rw [List.mem_cons, ih (current + step) (by omega) t]
      constructor
      · rintro (rfl | ⟨k, rfl, hk⟩)
        · exact ⟨0, by omega, by omega⟩
        · exact ⟨k + 1, by ring, hk⟩
      · rintro ⟨k, rfl, hk⟩
        cases k with
        | zero => left; omega
        | succ m => right; exact ⟨m, by ring, hk⟩
    · simp only [List.not_mem_nil, false_iff, not_exists, not_and]
      intro k ht
      have : current ≤ t := by subst ht; exact Nat.le_add_right _ _
      omega

/-- Membership characterization for `genSlots`. -/
theorem genSlots_mem (start stop dur step : Nat) (hstep : 0 < step) (t : Nat) :
    t ∈ genSlots start stop dur step ↔ ∃ k, t = start + k * step ∧ t + dur ≤ stop :=
  genSlotsAux_mem stop dur step hstep (stop + 1) start (by omega) t

/-- `genSlotsAux` yields a strictly increasing list for a positive step. -/
theorem genSlotsAux_pairwise (stop dur step : Nat) (hstep : 0 < step) :
    ∀ fuel current, (genSlotsAux stop dur step fuel current).Pairwise (· < ·) := by
  intro fuel
  induction fuel with
  | zero => intro current; simp [genSlotsAux]
  | succ n ih =>
    intro current
    unfold genSlotsAux
    split
    · refine List.Pairwise.cons ?_ (ih (current + step))
      intro t ht
      have := genSlotsAux_le stop dur step n (current + step) t ht
      omega
    · simp

/-- `genSlots` is strictly increasing. -/
theorem genSlots_pairwise (start stop dur step : Nat) (hstep : 0 < step) :
    (genSlots start stop dur step).Pairwise (· < ·) :=
  genSlotsAux_pairwise stop dur step hstep (stop + 1) start

/-! ## The overlap test and the claims -/

/-- **C2.** For a candidate interval `[s, s+d)` with `d > 0` and an
appointment interval `[a, e)` with `a < e`, the three-clause overlap test
of `countConcurrentBookings` holds exactly when the half-open intervals
intersect per the reference test `s < e ∧ a < s + d`; in particular
touching back-to-back intervals are not counted and genuinely overlapping
ones are. -/
theorem overlapTest_iff_intersects (s d a e : Nat) (hd : 0 < d) (hae : a < e) :
    overlapTest s (s + d) a e = true ↔ (s < e ∧ a < s + d) := by
  unfold overlapTest
  simp only [Bool.or_eq_true, Bool.and_eq_true, decide_eq_true_eq]
  omega

/-- Witness for C2 at the spec's example `[10:00,10:30)` vs
`[10:15,10:45)` (in minutes). -/
theorem overlapTest_iff_intersects_witness :
    overlapTest 600 (600 + 30) 615 645 = true ↔ (600 < 645 ∧ 615 < 600 + 30) :=
  overlapTest_iff_intersects 600 30 615 645 (by decide) (by decide)

/-- Over appointments with nonempty half-open intervals, the code's
three-clause count agrees with the spec's reference intersection count. -/
theorem countConcurrent_eq_spec (db : List Appointment) (date : Int) (t dur : Nat)
    (hdur : 0 < dur) (hwf : ∀ a ∈ db, a.time < a.end_time) :
    countConcurrentBookings t dur (activeOn db date) = specOverlapCount db date t dur := by
  unfold countConcurrentBookings specOverlapCount
  apply List.countP_congr
  intro a ha
  have haw : a.time < a.end_time := hwf a (List.mem_of_mem_filter ha)
  simp only [Bool.and_eq_true, decide_eq_true_eq]
  exact overlapTest_iff_intersects t dur a.time a.end_time hdur haw

/-- Membership in the result of `getAvailableSlots` (enabled weekday),
phrased with the code's own concurrent count. -/
theorem mem_getAvailableSlots (cfg : TenantConfig) (date : Int) (dur : Nat)
    (db : List Appointment)
    (hen : (cfg.working_hours (dayOfWeek date)).enabled = true) (t : Nat) (c : Int) :
    (t, c) ∈ getAvailableSlots cfg date dur db ↔
      (t ∈ genSlots (cfg.working_hours (dayOfWeek date)).start
          (cfg.working_hours (dayOfWeek date)).stop dur (effSlotDur cfg) ∧
       c = (effStylists cfg : Int) - countConcurrentBookings t dur (activeOn db date) ∧
       0 < c) := by
  simp only [getAvailableSlots, hen, Bool.not_true, Bool.false_eq_true, if_false,
    List.mem_filter, List.mem_map, decide_eq_true_eq]
  constructor
  · rintro ⟨⟨s, hs, heq⟩, hpos⟩
    have ht : s = t := congrArg Prod.fst heq
    have hc : c = (effStylists cfg : Int) - countConcurrentBookings s dur (activeOn db date) :=
      (congrArg Prod.snd heq).symm
    subst ht
    exact ⟨hs, hc, hpos⟩
  · rintro ⟨hs, hc, hpos⟩
    exact ⟨⟨t, hs, by rw [hc]⟩, hpos⟩

/-- The times returned by `getAvailableSlots` are strictly increasing. -/
theorem getAvailableSlots_sorted (cfg : TenantConfig) (date : Int) (dur : Nat)
    (db : List Appointment) :
    ((getAvailableSlots cfg date dur db).map Prod.fst).Pairwise (· < ·) := by
  by_cases hen : (cfg.working_hours (dayOfWeek date)).enabled
  · simp only [getAvailableSlots, hen, Bool.not_true, Bool.false_eq_true, if_false]
    rw [List.pairwise_map]
    refine List.Pairwise.sublist (List.filter_sublist _) ?_
    rw [List.pairwise_map]
    refine (genSlots_pairwise _ _ _ _ (orDefault_pos _ 30 (by omega))).imp ?_
    intro a b h
    exact h
  · rw [Bool.not_eq_true] at hen
    simp [getAvailableSlots, hen]

/-- **C1.** `getAvailableSlots` returns the empty sequence when the
resolved weekday is disabled; otherwise it returns, in strictly ascending
time order, exactly the candidate start times (opening time stepped by the
tenant's slot granularity, slot end within closing time, boundary
inclusive) whose remaining capacity `number_of_stylists − overlapCount` is
positive, each paired with that remaining capacity; the overlap count is
the number of stored confirmed/pending appointments for the date whose
half-open interval intersects the candidate's. -/
theorem getAvailableSlots_correct (cfg : TenantConfig) (date : Int) (dur : Nat)
    (db : List Appointment) (hdur : 0 < dur)
    (hwf : ∀ a ∈ db, a.time < a.end_time) :
    ((cfg.working_hours (dayOfWeek date)).enabled = false →
      getAvailableSlots cfg date dur db = []) ∧
    ((cfg.working_hours (dayOfWeek date)).enabled = true →
      (∀ t c, (t, c) ∈ getAvailableSlots cfg date dur db ↔
        ((∃ k, t = (cfg.working_hours (dayOfWeek date)).start + k * effSlotDur cfg ∧
            t + dur ≤ (cfg.working_hours (dayOfWeek date)).stop) ∧
         c = (effStylists cfg : Int) - specOverlapCount db date t dur ∧
         0 < c)) ∧
      ((getAvailableSlots cfg date dur db).map Prod.fst).Pairwise (· < ·)) := by
  constructor
  · intro hdis
    simp [getAvailableSlots, hdis]
  · intro hen
    refine ⟨?_, getAvailableSlots_sorted cfg date dur db⟩
    intro t c
    have hstep : 0 < effSlotDur cfg := orDefault_pos _ 30 (by omega)
    rw [mem_getAvailableSlots cfg date dur db hen t c, genSlots_mem _ _ _ _ hstep t,
      countConcurrent_eq_spec db date t dur hdur hwf]

/-- Witness for C1: for `cfgA` (09:00–11:00, 30-minute slots, 2 stylists)
with one 09:00–09:30 booking, the 09:00 slot is returned with remaining
capacity 1. -/
theorem getAvailableSlots_correct_witness :
    (540, 1) ∈ getAvailableSlots cfgA 0 30 dbA :=
  (((getAvailableSlots_correct cfgA 0 30 dbA (by decide)
      (by intro a ha; fin_cases ha; decide)).2 (by decide)).1 540 1).mpr
    ⟨⟨0, by decide, by decide⟩, by decide, by decide⟩

/-- **C4 (counterexample).** With `cfgD` (`number_of_stylists = 2`,
`max_concurrent_bookings = 5`) and one overlapping booking,
`getAvailableSlots` reports the 09:00 slot with remaining capacity 1 while
`isSlotAvailable` reports remaining capacity 4: the two functions read
different capacity settings, refuting the claim that they use the same
tenant capacity limit. -/
theorem slotCheck_capacity_field_mismatch :
    (540, 1) ∈ getAvailableSlots cfgD 0 30 dbA ∧
    (isSlotAvailable cfgD 0 540 30 dbA).available = true ∧
    (isSlotAvailable cfgD 0 540 30 dbA).available_slots = 4 ∧
    (4 : Int) ≠ 1 := by decide

/-- **C4 (amended).** `isSlotAvailable` performs the overlap computation of
`getAvailableSlots` restricted to the requested time, but against the
`max_concurrent_bookings` limit: it is unavailable (with the
capacity-exceeded reason) exactly when the overlapping confirmed/pending
count reaches that limit, else available with remaining capacity
`limit − count`; when the tenant's two effective capacity settings
coincide, a time reported by `getAvailableSlots` with remaining capacity
`c` is reported available with the same `c`. -/
theorem isSlotAvailable_spec (cfg : TenantConfig) (date : Int) (time dur : Nat)
    (db : List Appointment) :
    ((isSlotAvailable cfg date time dur db).available = false ↔
      effMaxConcurrent cfg ≤ countConcurrentBookings time dur (activeOn db date)) ∧
    ((isSlotAvailable cfg date time dur db).available = false →
      (isSlotAvailable cfg date time dur db).error = some msgNoStylist) ∧
    ((isSlotAvailable cfg date time dur db).available = true →
      (isSlotAvailable cfg date time dur db).available_slots =
        (effMaxConcurrent cfg : Int) - (countConcurrentBookings time dur (activeOn db date) : Int)) ∧
    (effMaxConcurrent cfg = effStylists cfg →
      ∀ c : Int, (time, c) ∈ getAvailableSlots cfg date dur db →
        (isSlotAvailable cfg date time dur db).available = true ∧
        (isSlotAvailable cfg date time dur db).available_slots = c) := by
  have hdef : isSlotAvailable cfg date time dur db =
      if effMaxConcurrent cfg ≤ countConcurrentBookings time dur (activeOn db date) then
        ⟨false, 0, some msgNoStylist⟩
      else
        ⟨true, (effMaxConcurrent cfg : Int) -
          (countConcurrentBookings time dur (activeOn db date) : Int), none⟩ := rfl
  by_cases hle : effMaxConcurrent cfg ≤ countConcurrentBookings time dur (activeOn db date)
  · rw [hdef, if_pos hle]
    refine ⟨by simp [hle], by simp, by simp, ?_⟩
    intro hlim c hmem
    by_cases hen : (cfg.working_hours (dayOfWeek date)).enabled
    · obtain ⟨-, hc, hpos⟩ := (mem_getAvailableSlots cfg date dur db hen time c).mp hmem
      rw [hlim] at hle
      omega
    · rw [Bool.not_eq_true] at hen
      simp [getAvailableSlots, hen] at hmem
  · rw [hdef, if_neg hle]
    refine ⟨by simp; omega, by simp, by simp, ?_⟩
    intro hlim c hmem
    by_cases hen : (cfg.working_hours (dayOfWeek date)).enabled
    · obtain ⟨-, hc, hpos⟩ := (mem_getAvailableSlots cfg date dur db hen time c).mp hmem
      exact ⟨rfl, by rw [hc, hlim]⟩
    · rw [Bool.not_eq_true] at hen
      simp [getAvailableSlots, hen] at hmem

/-- Witness for the amended C4: with `cfgA` (both capacity settings 2) the
09:00 slot reported by `getAvailableSlots` with capacity 1 is reported by
`isSlotAvailable` as available with capacity 1. -/
theorem isSlotAvailable_spec_witness :
    (isSlotAvailable cfgA 0 540 30 dbA).available = true ∧
    (isSlotAvailable cfgA 0 540 30 dbA).available_slots = 1 :=
  (isSlotAvailable_spec cfgA 0 540 30 dbA).2.2.2 (by decide) 1 (by decide)

/-- **C3.** `isSlotAvailableExcluding` (the availability decision used by
`updateAppointment`) rejects as soon as one other confirmed/pending
appointment overlaps, never consulting the tenant's concurrent-booking
capacity limit: here exactly one other appointment overlaps, the limit is
5, yet the update's slot check is unavailable — refuting the claim that
updates are rejected iff the self-excluded overlap count reaches the
capacity limit. -/
theorem updateSlotCheck_ignores_capacity :
    (isSlotAvailableExcluding 0 540 30 "BK-t-20250101-002" dbAB).1 = false ∧
    countConcurrentBookings 540 30 (dbAB.filter fun a =>
      decide (a.date = 0) && isActive a.status &&
        decide (a.booking_id ≠ "BK-t-20250101-002")) = 1 ∧
    effMaxConcurrent cfgD = 5 ∧ (1 : Nat) < 5 := by decide

/-- **C5.** `generateBookingId` starts at `-001` and increments the suffix
for same-width suffixes, but takes the *lexicographically* (not
numerically) greatest existing identifier: with both `-999` and `-1000`
stored it regenerates `BK-t-20251010-1000`, an identifier already present
in the store — refuting uniqueness. -/
theorem generateBookingId_lex_duplicate :
    generateBookingId "t" "2025-10-10" [] = some "BK-t-20251010-001" ∧
    generateBookingId "t" "2025-10-10" ["BK-t-20251010-001"] = some "BK-t-20251010-002" ∧
    generateBookingId "t" "2025-10-10" ["BK-t-20251010-001", "BK-t-20251010-002"] =
      some "BK-t-20251010-003" ∧
    generateBookingId "t" "2025-10-10" store999 = some "BK-t-20251010-1000" ∧
    "BK-t-20251010-1000" ∈ store999 := by decide

/-- **C6.** The booking-identifier pattern of `validateBookingId` demands
exactly three digits in the sequence part, so the four-digit identifiers
that `generateBookingId` itself produces from sequence 1000 on (widened by
`padStart`, as the spec requires) are rejected as invalid. -/
theorem validateBookingId_rejects_wide_seq :
    validateBookingId "BK-salon-farah-20251010-1000" = false ∧
    validateBookingId "BK-salon-farah-20251010-999" = true ∧
    generateBookingId "salon-farah" "2025-10-10" ["BK-salon-farah-20251010-999"] =
      some "BK-salon-farah-20251010-1000" := by decide

/-- **C7.** When only `new_time` is supplied (no `new_date`), the
date/time-change block of `updateAppointment` runs no time validation at
all: moving `apt7` to 22:00 — outside the tenant's 09:00–21:00 working
hours, as `validateTime` itself reports — succeeds and would be written to
the store. -/
theorem update_skips_time_validation :
    updateDateTimeCheck cfg7 0 apt7 none (some 1320) 30 db7 =
      .ok (some ⟨none, some 1320, 1350⟩) ∧
    validateTime cfg7 (some 1320) (dayOfWeek 10) = .error (msgOutsideHours 540 1260) := by
  constructor
  · rfl
  · rfl

/-- The "already past" message differs from every insufficient-notice
message (their first characters differ). -/
theorem msgAlreadyPast_ne_msgNotice (h : Nat) : msgAlreadyPast ≠ msgNotice h := by
  intro heq
  have hd : msgAlreadyPast.data = (msgNotice h).data := by rw [heq]
  rw [msgNotice, String.data_append, String.data_append] at hd
  have h1 := congrArg List.head? hd
  simp [msgAlreadyPast] at h1

/-- Re-fetching by identifier after `updateOne` on that identifier yields
the rewritten record, provided the rewrite preserves the identifier. -/
theorem findOne_updateOne (store : List Appointment) (bid : String)
    (f : Appointment → Appointment) (apt : Appointment)
    (hf : ∀ a, (f a).booking_id = a.booking_id)
    (h : findOne store bid = some apt) :
    findOne (updateOne store bid f) bid = some (f apt) := by
  unfold findOne updateOne at *
  induction store with
  | nil => simp at h
  | cons a rest ih =>
    rw [List.map_cons]
    by_cases hab : a.booking_id = bid
    · rw [List.find?_cons_of_pos _ (by simp [hab])] at h
      rw [if_pos hab, List.find?_cons_of_pos _ (by simp [hf, hab])]
      cases h
      rfl
    · rw [List.find?_cons_of_neg _ (by simp [hab])] at h
      rw [if_neg hab, List.find?_cons_of_neg _ (by simp [hab])]
      exact ih h

/-- **C8.** For an existing non-cancelled appointment: a start already in
the past is rejected with the "already past" error; otherwise a start
closer than the tenant's notice window is rejected with the (distinct)
insufficient-notice error; otherwise the record is rewritten to cancelled
with the cancellation timestamp and trimmed reason; and every rejection
leaves the store unchanged. -/
theorem cancelAppointment_policy (cfg : TenantConfig) (nowMin ts : Int)
    (store : List Appointment) (bid reason : String) (apt : Appointment)
    (hid : validateBookingId bid = true)
    (hfind : findOne store bid = some apt)
    (hnc : ¬apt.status = .cancelled) :
    (apt.date * 1440 + apt.time - nowMin < 0 →
      cancelAppointment cfg nowMin ts store bid reason = (.error msgAlreadyPast, store)) ∧
    (0 ≤ apt.date * 1440 + apt.time - nowMin →
      apt.date * 1440 + apt.time - nowMin < (effNoticeHours cfg : Int) * 60 →
      cancelAppointment cfg nowMin ts store bid reason =
        (.error (msgNotice (effNoticeHours cfg)), store)) ∧
    ((effNoticeHours cfg : Int) * 60 ≤ apt.date * 1440 + apt.time - nowMin →
      cancelAppointment cfg nowMin ts store bid reason =
        (.ok (cancelFields ts reason apt), updateOne store bid (cancelFields ts reason))) ∧
    msgAlreadyPast ≠ msgNotice (effNoticeHours cfg) ∧
    (∀ e, (cancelAppointment cfg nowMin ts store bid reason).1 = .error e →
      (cancelAppointment cfg nowMin ts store bid reason).2 = store) := by
  simp only [cancelAppointment, hid, Bool.not_true, Bool.false_eq_true, if_false, hfind,
    if_neg hnc]
  refine ⟨fun h1 => ?_, fun h1 h2 => ?_, fun h1 => ?_,
    msgAlreadyPast_ne_msgNotice (effNoticeHours cfg), ?_⟩
  · rw [if_pos h1]
  · rw [if_neg (by omega), if_pos h2]
  · rw [if_neg (by omega), if_neg (by omega),
      findOne_updateOne store bid (cancelFields ts reason) apt (fun a => rfl) hfind]
  · split_ifs with h1 h2
    · intro e _
      rfl
    · intro e _
      rfl
    · rw [findOne_updateOne store bid (cancelFields ts reason) apt (fun a => rfl) hfind]
      intro e he
      exact absurd he (by simp)

/-- Witness for C8: with a 24-hour notice requirement and an appointment
starting 980 minutes (≈16.3 hours) from now, cancellation is rejected with
the insufficient-notice error and the store is untouched. -/
theorem cancelAppointment_policy_witness :
    cancelAppointment cfgA 1000 5 store8 "BK-x-20251010-001" "سبب" =
      (.error (msgNotice (effNoticeHours cfgA)), store8) :=
  (cancelAppointment_policy cfgA 1000 5 store8 "BK-x-20251010-001" "سبب" apt8
    (by decide) (by decide) (by decide)).2.1 (by decide) (by decide)

/-- **C9.** `validateBookingInput` accumulates: its error list contains a
message exactly when it is the message of a failing check among phone,
date, time (the time check existing only when the date check succeeded),
service, and customer name; the result is valid exactly when that list is
empty; and on success the result carries the normalized data — canonical
phone, resolved weekday, resolved service object. -/
theorem validateBookingInput_accumulates (cfg : TenantConfig) (today : Int)
    (inp : BookingInput) :
    (∀ e, e ∈ (validateBookingInput cfg today inp).errors ↔
      (inp.phone = .error e ∨
       validateDate cfg today inp.date = .error e ∨
       (∃ w, validateDate cfg today inp.date = .ok w ∧
         validateTime cfg inp.time w = .error e) ∨
       validateService cfg inp.service_id = .error e ∨
       ((jsTrim inp.customer_name).length < 2 ∧ e = msgName))) ∧
    ((validateBookingInput cfg today inp).valid = true ↔
      (validateBookingInput cfg today inp).errors = []) ∧
    ((validateBookingInput cfg today inp).valid = true →
      ∃ f w s, inp.phone = .ok f ∧ validateDate cfg today inp.date = .ok w ∧
        validateTime cfg inp.time w = .ok () ∧
        validateService cfg inp.service_id = .ok s ∧
        ¬(jsTrim inp.customer_name).length < 2 ∧
        (validateBookingInput cfg today inp).data = some ⟨some f, some w, some s⟩) := by
  rcases hd : validateDate cfg today inp.date with ed | wd
  · rcases hp : inp.phone with ep | fp <;>
      rcases hs : validateService cfg inp.service_id with es | sv <;>
      by_cases hn : (jsTrim inp.customer_name).length < 2 <;>
      simp_all [validateBookingInput] <;> tauto
  · rcases ht : validateTime cfg inp.time wd with et | u
    · rcases hp : inp.phone with ep | fp <;>
        rcases hs : validateService cfg inp.service_id with es | sv <;>
        by_cases hn : (jsTrim inp.customer_name).length < 2 <;>
        simp_all [validateBookingInput] <;> tauto
    · cases u
      rcases hp : inp.phone with ep | fp <;>
        rcases hs : validateService cfg inp.service_id with es | sv <;>
        by_cases hn : (jsTrim inp.customer_name).length < 2 <;>
        simp_all [validateBookingInput] <;> tauto

/-- Witness for C9: the fully valid input `inpW` passes and carries its
normalized data. -/
theorem validateBookingInput_accumulates_witness :
    ∃ f w s, inpW.phone = .ok f ∧ validateDate cfgA 0 inpW.date = .ok w ∧
      validateTime cfgA inpW.time w = .ok () ∧
      validateService cfgA inpW.service_id = .ok s ∧
      ¬(jsTrim inpW.customer_name).length < 2 ∧
      (validateBookingInput cfgA 0 inpW).data = some ⟨some f, some w, some s⟩ :=
  (validateBookingInput_accumulates cfgA 0 inpW).2.2 (by decide)

/-- **C10.** For a booking on the current date, `validateDate` accepts
(its past check compares whole days: only dates strictly before today are
rejected) and `validateTime` accepts any time within the weekday's working
hours; neither function consults the current time of day (`validateTime`
has no clock input at all), so a time earlier than the current clock time
on the same day validates. -/
theorem validate_today_earlier_time (cfg : TenantConfig) (today : Int) (t : Nat)
    (hblocked : today ∉ cfg.blocked_dates)
    (hen : (cfg.working_hours (dayOfWeek today)).enabled = true)
    (hlo : (cfg.working_hours (dayOfWeek today)).start ≤ t)
    (hhi : t < (cfg.working_hours (dayOfWeek today)).stop) :
    validateDate cfg today (some today) = .ok (dayOfWeek today) ∧
    validateTime cfg (some t) (dayOfWeek today) = .ok () := by
  constructor
  · simp only [validateDate]
    rw [if_neg (by omega), if_neg (by omega), if_neg (by simpa using hblocked)]
  · simp only [validateTime, hen, Bool.not_true, Bool.false_eq_true, if_false]
    rw [if_neg]
    simp only [Bool.or_eq_true, decide_eq_true_eq, not_or]
    omega

/-- Witness for C10: day 0 at 10:00 validates under `cfgA` (working hours
09:00–11:00) although 10:00 may be earlier than the current clock time of
day 0. -/
theorem validate_today_earlier_time_witness :
    validateDate cfgA 0 (some 0) = .ok (dayOfWeek 0) ∧
    validateTime cfgA (some 600) (dayOfWeek 0) = .ok () :=
  validate_today_earlier_time cfgA 0 600 (by decide) (by decide) (by decide) (by decide)

end Salon
